import Mathlib

/-!
Verification of the EvaEngine/NodeSide namespaced cache design and of the
entities module.

The repository ships the ava test suite for the cache together with the
entities module, but the cache implementation itself is not among the source
files; the design document (spec.md, sections 3 and 4) is its only
description.  The cache definitions below are therefore modelled from the
spec, as their doc comments record.  The entities module and the
Sequelize prototype patch are embedded from the JavaScript source
(src/entities/index.js and the unnamed source file).
-/

namespace NodeSide

/- ### String helpers

The backing store keys are JavaScript strings; we embed them as Lean
strings and reason through their underlying character lists. -/

/-- Boolean test that character c occurs in string s. -/
def strHas (c : Char) (s : String) : Bool := s.data.contains c

/-- Boolean test that string p is a prefix of string s; this is the
pattern match used by the enumerate primitive of the backing store. -/
def strPrefix (p s : String) : Bool := p.data.isPrefixOf s.data

/- ### Key Codec -/

/-- Modelled from the spec: the fixed delimiter separating the namespace
from the logical key inside a physical key (section 4.1); it may not occur
inside a namespace identifier. -/
def SEP : String := ":"

/-- Modelled from the spec: Key Codec encode (section 4.1) maps a
namespace and a logical key to the physical key sent to the backing
store; for the default (empty) namespace the physical key is the logical
key unchanged. -/
def encode (ns key : String) : String :=
  if ns = "" then key else ns ++ SEP ++ key

/-- Modelled from the spec: the prefix pattern addressing every physical
key of a namespace (section 4.1). -/
def pattern (ns : String) : String := ns ++ SEP

/-- A namespace identifier is valid when it does not contain the
delimiter (section 4.1: encoding fails with InvalidNamespace otherwise). -/
def validNs (ns : String) : Bool := !(strHas ':' ns)

/- ### Backing store -/

/-- Modelled from the spec: the backing key-value store state, an
association list from physical keys to opaque value blobs (all entry
state lives in the backing store, section 3). -/
abbrev Store := List (String × String)

/-- Modelled from the spec: backing store GET, returning the value bound
to a physical key or nothing when absent. -/
def storeGet (s : Store) (pk : String) : Option String :=
  (s.find? (fun e => e.1 = pk)).map Prod.snd

/-- Modelled from the spec: overwrite-or-create of one physical key. -/
def storeInsert (s : Store) (pk v : String) : Store :=
  (pk, v) :: s.filter (fun e => e.1 ≠ pk)

/-- Modelled from the spec: removal of one physical key. -/
def storeRemove (s : Store) (pk : String) : Store :=
  s.filter (fun e => e.1 ≠ pk)

/-- Modelled from the spec: the conditional SET modes of the backing
store (section 4.2): unconditional overwrite, set-if-absent (nx) and
set-if-present (xx). -/
inductive SetMode where
  | plain : SetMode
  | nx : SetMode
  | xx : SetMode
deriving DecidableEq, Repr

/-- Modelled from the spec: atomic conditional SET (section 4.2).  Under
nx the write succeeds iff no entry exists, under xx iff one exists, and
under plain mode it always succeeds; the result marker is the literal OK
on success and nothing when the mode precondition was not met.  Expiry
enforcement is delegated to the backing store, so the ttl argument does
not affect the embedded state. -/
def backingSet (s : Store) (pk v : String) (ttl : Nat) (mode : SetMode) :
    Option String × Store :=
  match mode with
  | SetMode.plain => (some "OK", storeInsert s pk v)
  | SetMode.nx =>
    if (storeGet s pk).isSome then (none, s) else (some "OK", storeInsert s pk v)
  | SetMode.xx =>
    if (storeGet s pk).isSome then (some "OK", storeInsert s pk v) else (none, s)

/-- Modelled from the spec: backing store DEL, true iff an entry existed
and was removed (section 4.2). -/
def backingDel (s : Store) (pk : String) : Bool × Store :=
  if (storeGet s pk).isSome then (true, storeRemove s pk) else (false, s)

/-- Modelled from the spec: prefix-pattern key enumeration
(section 4.2), listing every physical key matching the pattern. -/
def enumerate (s : Store) (pre : String) : List String :=
  (s.filter (fun e => strPrefix pre e.1)).map Prod.fst

/- ### Namespace view -/

/-- Modelled from the spec: namespace-scoped get (section 4.3): encode
the key and delegate; absence maps to null. -/
def nsGet (s : Store) (ns k : String) : Option String :=
  storeGet s (encode ns k)

/-- Modelled from the spec: namespace-scoped existence check
(section 4.3). -/
def nsHas (s : Store) (ns k : String) : Bool :=
  (nsGet s ns k).isSome

/-- Modelled from the spec: namespace-scoped set (section 4.3),
returning the OK marker or null together with the next store state. -/
def nsSet (s : Store) (ns k v : String) (ttl : Nat) (mode : SetMode) :
    Option String × Store :=
  backingSet s (encode ns k) v ttl mode

/-- Modelled from the spec: namespace-scoped delete (section 4.3). -/
def nsDel (s : Store) (ns k : String) : Bool × Store :=
  backingDel s (encode ns k)

/-- One step of the flush loop: delete the physical key and add one to
the count when the deletion actually removed an entry. -/
def flushStep (acc : Nat × Store) (pk : String) : Nat × Store :=
  let r := backingDel acc.2 pk
  (acc.1 + (if r.1 then 1 else 0), r.2)

/-- Modelled from the spec: namespace-scoped flush (section 4.3):
enumerate all physical keys matching the namespace pattern, delete each
one, and return the number of deletions that actually removed an
entry. -/
def nsFlush (s : Store) (ns : String) : Nat × Store :=
  (enumerate s (pattern ns)).foldl flushStep (0, s)

/- ### Cache facade -/

/-- Modelled from the spec: the facade operations are bound to the
default (empty) namespace (section 4.4); facade flush delegates to the
namespace view bound to the default namespace and must never wipe the
other namespaces. -/
def cacheFlush (s : Store) : Nat × Store :=
  nsFlush s ""

/-- Modelled from the spec: facade get on the default namespace. -/
def cacheGet (s : Store) (k : String) : Option String :=
  nsGet s "" k

/-- Modelled from the spec: facade set on the default namespace. -/
def cacheSet (s : Store) (k v : String) (ttl : Nat) (mode : SetMode) :
    Option String × Store :=
  nsSet s "" k v ttl mode

/-- Modelled from the spec: facade delete on the default namespace. -/
def cacheDel (s : Store) (k : String) : Bool × Store :=
  nsDel s "" k

/-- The number of entries of the store whose physical key matches the
pattern of namespace ns: the entry count of the namespace. -/
def nsCount (s : Store) (ns : String) : Nat :=
  (s.filter (fun e => strPrefix (pattern ns) e.1)).length

/- ### Cache operation traces

A trace of operations issued through one namespace view, used to state
properties about keys never previously set. -/

/-- One operation issued through a namespace view. -/
inductive CacheOp where
  | opSet : String → String → Nat → SetMode → CacheOp
  | opDel : String → CacheOp
  | opFlush : CacheOp
deriving DecidableEq, Repr

/-- The store reached after running one operation on the view of
namespace ns, discarding the returned status. -/
def runOp (ns : String) (s : Store) : CacheOp → Store
  | CacheOp.opSet k v ttl mode => (nsSet s ns k v ttl mode).2
  | CacheOp.opDel k => (nsDel s ns k).2
  | CacheOp.opFlush => (nsFlush s ns).2

/-- The store reached after running a list of operations on the view of
namespace ns. -/
def runOps (ns : String) (s : Store) (ops : List CacheOp) : Store :=
  ops.foldl (runOp ns) s

/-- Boolean test that an operation is a set of logical key k. -/
def setsKey (k : String) : CacheOp → Bool
  | CacheOp.opSet k2 _ _ _ => k2 = k
  | _ => false

/- ### The Sequelize prototype patch (src/entities/index.js lines 7 to 26
and the unnamed source file lines 12 to 33) -/

/-- The error message built by the validateIsUnique helper: the given msg
when present, otherwise the column name followed by " must be unique". -/
def validateIsUniqueMessage (col : String) (msg : Option String) : String :=
  msg.getD (col ++ " must be unique")

/-- The decision of the patched validator given the count of conflicting
rows: the error message when the count is non-zero, success (no message)
when it is zero. -/
def validateIsUniqueCheck (col : String) (msg : Option String)
    (found : Nat) : Option String :=
  if found ≠ 0 then some (validateIsUniqueMessage col msg) else none

/-- The shared Sequelize prototype, restricted to the single slot the
entities module touches: the validateIsUnique helper, none while the
helper is absent. -/
structure SequelizePrototype where
  validateIsUnique : Option (String → Option String → Nat → Option String)

/-- Importing the entities module: its top-level statement assigns the
validateIsUnique helper onto the shared Sequelize prototype before the
Entities class is even declared (src/entities/index.js line 7). -/
def loadEntitiesModule (p : SequelizePrototype) : SequelizePrototype :=
  { p with validateIsUnique := some validateIsUniqueCheck }

/- ### The Entities class (unnamed source file lines 36 to 263) -/

/-- A Sequelize handle held by an Entities object: an instance, or a
factory function the init method resolves by calling it; instances are
identified by a number. -/
inductive SeqRef where
  | inst : Nat → SeqRef
  | factory : Nat → SeqRef
deriving DecidableEq, Repr

/-- The mutable fields of an Entities object: the sequelize handle, the
scanned flag and the entity registry; the constructor starts with the
given handle, an empty registry and scanned false. -/
structure EntitiesState where
  sequelize : Option SeqRef
  scanned : Bool
  entities : List (String × Nat)
deriving DecidableEq, Repr

/-- The observable work an init call performs outside the object: how
many new Sequelize instances it constructs and how many entity directory
scans it runs. -/
structure InitEffects where
  constructed : Nat
  scans : Nat
deriving DecidableEq, Repr

/-- Registry insertion performed by scan: each imported entity is stored
under its model name, a later file overwriting an earlier entry of the
same name. -/
def registryInsert (r : List (String × Nat)) (nm : String) (m : Nat) :
    List (String × Nat) :=
  (nm, m) :: r.filter (fun e => e.1 ≠ nm)

/-- The scan method: import every entity file found in the directory and
record it in the registry (the associate pass wires the models together
and leaves the registry itself unchanged). -/
def scanEntities (st : EntitiesState) (found : List (String × Nat)) :
    EntitiesState :=
  { st with
    entities := found.foldl (fun r e => registryInsert r e.1 e.2) st.entities }

/-- The init method of the Entities class (unnamed source file lines 112
to 144): when a sequelize instance exists and the scan already ran it
returns at once; otherwise it obtains an instance (constructing a new
Sequelize only when none was supplied, resolving a supplied factory by
calling it), scans the entities directory once and marks the object
scanned.  The fresh argument is the identity of the instance a
construction would produce, and found is what a directory scan would
import. -/
def Entities.init (st : EntitiesState) (fresh : Nat)
    (found : List (String × Nat)) : EntitiesState × InitEffects :=
  if st.sequelize.isSome && st.scanned then (st, ⟨0, 0⟩)
  else
    let r :=
      match st.sequelize with
      | none => (fresh, 1)
      | some (SeqRef.inst i) => (i, 0)
      | some (SeqRef.factory f) => (f, 0)
    let st1 := scanEntities { st with sequelize := some (SeqRef.inst r.1) } found
    ({ st1 with scanned := true }, ⟨r.2, 1⟩)

/-- The getInstance method: call init, then return the sequelize
handle. -/
def Entities.getInstance (st : EntitiesState) (fresh : Nat)
    (found : List (String × Nat)) :
    Option SeqRef × EntitiesState × InitEffects :=
  let r := Entities.init st fresh found
  (r.1.sequelize, r.1, r.2)

/-- The get method: call init, then look the requested model up in the
registry. -/
def Entities.get (st : EntitiesState) (fresh : Nat)
    (found : List (String × Nat)) (name : String) :
    Option Nat × EntitiesState × InitEffects :=
  let r := Entities.init st fresh found
  ((r.1.entities.find? (fun e => e.1 = name)).map Prod.snd, r.1, r.2)

/-- The getAll method: call init, then return the whole registry. -/
def Entities.getAll (st : EntitiesState) (fresh : Nat)
    (found : List (String × Nat)) :
    List (String × Nat) × EntitiesState × InitEffects :=
  let r := Entities.init st fresh found
  (r.1.entities, r.1, r.2)

/-- The module-level state of the older entities module
(src/entities/index.js lines 28 and 29): one shared sequelize instance
and one shared registry. -/
structure EntitiesModuleState where
  sequelize : Option Nat
  entities : List (String × Nat)
deriving DecidableEq, Repr

/-- The init method of the older entities module (src/entities/index.js
lines 36 to 62): it returns at once when the module-level sequelize
exists, otherwise it constructs one and scans the directory. -/
def EntitiesModule.init (st : EntitiesModuleState) (fresh : Nat)
    (found : List (String × Nat)) : EntitiesModuleState × InitEffects :=
  if st.sequelize.isSome then (st, ⟨0, 0⟩)
  else
    ({ sequelize := some fresh,
       entities := found.foldl (fun r e => registryInsert r e.1 e.2) st.entities },
     ⟨1, 1⟩)

/- ### Helper lemmas about the string codec -/

theorem strPrefix_iff (p s : String) : strPrefix p s = true ↔ p.data <+: s.data := by
  simp [strPrefix, List.isPrefixOf_iff_prefix]

theorem strHas_false_iff (c : Char) (s : String) :
    strHas c s = false ↔ c ∉ s.data := by
  simp [strHas]

theorem data_ne_of_ne {a b : String} (h : a ≠ b) : a.data ≠ b.data :=
  fun h2 => h (String.ext h2)

theorem data_ne_nil_of_ne {s : String} (h : s ≠ "") : s.data ≠ [] :=
  fun h2 => h (String.ext (by simpa using h2))

theorem encode_default (k : String) : encode "" k = k := by
  simp [encode]

theorem encode_data {ns : String} (k : String) (h : ns ≠ "") :
    (encode ns k).data = ns.data ++ ':' :: k.data := by
  simp [encode, h, SEP, String.data_append]

theorem pattern_data (ns : String) : (pattern ns).data = ns.data ++ [':'] := by
  simp [pattern, SEP, String.data_append]

theorem encode_inj_key {ns k1 k2 : String} (h : encode ns k1 = encode ns k2) :
    k1 = k2 := by
  by_cases hns : ns = ""
  · subst hns; simpa [encode_default] using h
  · have hd := congrArg String.data h
    rw [encode_data k1 hns, encode_data k2 hns] at hd
    have := List.append_cancel_left hd
    exact String.ext (List.cons_injective this)

theorem encode_inj_ns {A B k : String} (h : encode A k = encode B k) : A = B := by
  by_cases hA : A = "" <;> by_cases hB : B = ""
  · rw [hA, hB]
  · exfalso
    rw [hA, encode_default] at h
    have hd := congrArg String.data h
    rw [encode_data k hB] at hd
    have := congrArg List.length hd
    simp [List.length_append] at this
    omega
  · exfalso
    rw [hB, encode_default] at h
    have hd := congrArg String.data h
    rw [encode_data k hA] at hd
    have := congrArg List.length hd
    simp [List.length_append] at this
    omega
  · have hd := congrArg String.data h
    rw [encode_data k hA, encode_data k hB] at hd
    have hd2 : (A.data ++ [':']) ++ k.data = (B.data ++ [':']) ++ k.data := by
      simpa [List.append_assoc] using hd
    have h3 := List.append_cancel_right hd2
    exact String.ext (List.append_cancel_right h3)

theorem encode_ne_key {ns k1 k2 : String} (h : k1 ≠ k2) :
    encode ns k1 ≠ encode ns k2 :=
  fun he => h (encode_inj_key he)

theorem encode_ne_ns {A B k : String} (h : A ≠ B) :
    encode A k ≠ encode B k :=
  fun he => h (encode_inj_ns he)

theorem strPrefix_pattern_encode {ns : String} (k : String) (h : ns ≠ "") :
    strPrefix (pattern ns) (encode ns k) = true := by
  rw [strPrefix_iff, pattern_data, encode_data k h]
  exact ⟨k.data, by simp⟩

theorem sep_prefix_le {a b : List Char} (hb : ':' ∉ b)
    (h : (a ++ [':']) <+: (b ++ [':'])) : a = b := by
  rcases List.prefix_concat_iff.mp h with h1 | h2
  · exact List.append_cancel_right h1
  · exact absurd (List.IsPrefix.mem (by simp) h2) hb

theorem sep_prefix_unique {a b p : List Char} (ha : ':' ∉ a) (hb : ':' ∉ b)
    (hpa : (a ++ [':']) <+: p) (hpb : (b ++ [':']) <+: p) : a = b := by
  rcases List.prefix_or_prefix_of_prefix hpa hpb with h | h
  · exact sep_prefix_le hb h
  · exact (sep_prefix_le ha h).symm

theorem pattern_disjoint {A B pk : String} (hA : strHas ':' A = false)
    (hB : strHas ':' B = false) (hAB : A ≠ B)
    (h1 : strPrefix (pattern A) pk = true) :
    strPrefix (pattern B) pk = false := by
  by_contra hc
  have h2 : strPrefix (pattern B) pk = true := by
    cases hx : strPrefix (pattern B) pk
    · exact absurd hx hc
    · rfl
  rw [strPrefix_iff, pattern_data] at h1 h2
  exact hAB (String.ext (sep_prefix_unique ((strHas_false_iff ':' A).mp hA)
    ((strHas_false_iff ':' B).mp hB) h1 h2))

/- ### Helper lemmas about the backing store -/

theorem storeGet_eq_none_iff (s : Store) (pk : String) :
    storeGet s pk = none ↔ ∀ e ∈ s, e.1 ≠ pk := by
  simp [storeGet, List.find?_eq_none]

theorem storeGet_insert_self (s : Store) (pk v : String) :
    storeGet (storeInsert s pk v) pk = some v := by
  simp [storeGet, storeInsert]

theorem storeGet_filter (s : Store) (P : String × String → Bool) (pk : String)
    (h : ∀ e ∈ s, e.1 = pk → P e = true) :
    storeGet (s.filter P) pk = storeGet s pk := by
  induction s with
  | nil => rfl
  | cons e t ih =>
    have iht := ih (fun e2 he2 => h e2 (List.mem_cons_of_mem _ he2))
    by_cases he : e.1 = pk
    · have hP : P e = true := h e (List.mem_cons_self _ _) he
      simp [storeGet, List.filter_cons, hP, List.find?, he]
    · cases hP : P e
      · simpa [storeGet, List.filter_cons, hP, List.find?, he] using iht
      · simpa [storeGet, List.filter_cons, hP, List.find?, he] using iht

theorem storeGet_insert_ne (s : Store) (pk v pk2 : String) (h : pk2 ≠ pk) :
    storeGet (storeInsert s pk v) pk2 = storeGet s pk2 := by
  have h2 : pk ≠ pk2 := fun he => h he.symm
  have h3 := storeGet_filter s (fun e => e.1 ≠ pk) pk2
    (fun e _ hepk2 => by simp [hepk2]; exact h)
  simpa [storeInsert, storeGet, List.find?, h2] using h3

theorem storeGet_none_filter {s : Store} {pk : String}
    (P : String × String → Bool) (h : storeGet s pk = none) :
    storeGet (s.filter P) pk = none := by
  rw [storeGet_eq_none_iff] at h ⊢
  exact fun e he => h e (List.mem_filter.mp he).1

theorem storeRemove_of_absent {s : Store} {pk : String}
    (h : storeGet s pk = none) : storeRemove s pk = s := by
  refine List.filter_eq_self.mpr (fun e he => ?_)
  have := (storeGet_eq_none_iff s pk).mp h e he
  simpa using this

theorem flushStep_store (acc : Nat × Store) (pk : String) :
    (flushStep acc pk).2 = acc.2.filter (fun e => e.1 ≠ pk) := by
  by_cases hp : (storeGet acc.2 pk).isSome
  · simp [flushStep, backingDel, hp, storeRemove]
  · have hn : storeGet acc.2 pk = none := by
      cases hx : storeGet acc.2 pk
      · rfl
      · rw [hx] at hp; simp at hp
    have hid : acc.2.filter (fun e => e.1 ≠ pk) = acc.2 := storeRemove_of_absent hn
    have hid2 : acc.2.filter (fun e => !decide (e.1 = pk)) = acc.2 := by
      simpa [decide_not] using hid
    simp [flushStep, backingDel, hp, hid2]

theorem flushLoop_store (keys : List String) (acc : Nat × Store) :
    (keys.foldl flushStep acc).2 =
      acc.2.filter (fun e => !(keys.contains e.1)) := by
  induction keys generalizing acc with
  | nil => simp
  | cons pk rest ih =>
    rw [List.foldl_cons, ih, flushStep_store, List.filter_filter]
    refine List.filter_congr (fun e _ => ?_)
    by_cases h1 : e.1 = pk <;> by_cases h2 : e.1 ∈ rest <;> simp [h1, h2]

theorem mem_enumerate_iff (s : Store) (pre pk : String) :
    pk ∈ enumerate s pre ↔ ∃ v, (pk, v) ∈ s ∧ strPrefix pre pk = true := by
  constructor
  · intro h
    rcases List.mem_map.mp h with ⟨e, he, hfst⟩
    rcases List.mem_filter.mp he with ⟨hes, hepre⟩
    exact ⟨e.2, by rwa [← hfst], by rwa [← hfst]⟩
  · rintro ⟨v, hvs, hpre⟩
    exact List.mem_map.mpr ⟨(pk, v), List.mem_filter.mpr ⟨hvs, hpre⟩, rfl⟩

theorem storeGet_remove_self (s : Store) (pk : String) :
    storeGet (storeRemove s pk) pk = none := by
  rw [storeGet_eq_none_iff]
  intro e he
  simpa using (List.mem_filter.mp he).2

theorem nsFlush_store (s : Store) (ns : String) :
    (nsFlush s ns).2 = s.filter (fun e => !(strPrefix (pattern ns) e.1)) := by
  rw [nsFlush, flushLoop_store]
  refine List.filter_congr (fun e he => ?_)
  congr 1
  cases hm : strPrefix (pattern ns) e.1
  · have : e.1 ∉ enumerate s (pattern ns) := by
      intro hmem
      rcases (mem_enumerate_iff s (pattern ns) e.1).mp hmem with ⟨v, _, hpre⟩
      rw [hm] at hpre
      exact Bool.false_ne_true hpre
    simpa using this
  · have : e.1 ∈ enumerate s (pattern ns) :=
      (mem_enumerate_iff s (pattern ns) e.1).mpr ⟨e.2, by simpa using he, hm⟩
    simpa using this

theorem storeGet_isSome_of_mem {s : Store} {pk v : String}
    (h : (pk, v) ∈ s) : (storeGet s pk).isSome = true := by
  rw [storeGet]
  cases hf : List.find? (fun e => e.1 = pk) s with
  | some e => rfl
  | none =>
    exfalso
    have := List.find?_eq_none.mp hf (pk, v) h
    simp at this

theorem flushLoop_count (keys : List String) (c : Nat) (s : Store)
    (hmem : ∀ pk ∈ keys, (storeGet s pk).isSome = true) (hnd : keys.Nodup) :
    (keys.foldl flushStep (c, s)).1 = c + keys.length := by
  induction keys generalizing c s with
  | nil => simp
  | cons pk rest ih =>
    rw [List.foldl_cons]
    have hpk : (storeGet s pk).isSome = true := hmem pk (List.mem_cons_self _ _)
    have hstep : flushStep (c, s) pk = (c + 1, s.filter (fun e => e.1 ≠ pk)) := by
      simp [flushStep, backingDel, hpk, storeRemove]
    rw [hstep]
    have hrest : ∀ pk2 ∈ rest,
        (storeGet (s.filter (fun e => e.1 ≠ pk)) pk2).isSome = true := by
      intro pk2 h2
      have hne : pk2 ≠ pk := fun he => (List.nodup_cons.mp hnd).1 (he ▸ h2)
      rw [storeGet_filter s _ pk2 (fun e _ heq => by simp [heq]; exact hne)]
      exact hmem pk2 (List.mem_cons_of_mem _ h2)
    rw [ih (c + 1) _ hrest (List.nodup_cons.mp hnd).2]
    simp [List.length_cons]
    omega

theorem nsGet_nsSet_other {s : Store} {A k2 B k : String} (v : String)
    (ttl : Nat) (m : SetMode) (h : encode B k ≠ encode A k2) :
    nsGet (nsSet s A k2 v ttl m).2 B k = nsGet s B k := by
  cases m with
  | plain => simp [nsSet, backingSet, nsGet, storeGet_insert_ne _ _ _ _ h]
  | nx =>
    by_cases hp : (storeGet s (encode A k2)).isSome
    · simp [nsSet, backingSet, hp]
    · simp [nsSet, backingSet, hp, nsGet, storeGet_insert_ne _ _ _ _ h]
  | xx =>
    by_cases hp : (storeGet s (encode A k2)).isSome
    · simp [nsSet, backingSet, hp, nsGet, storeGet_insert_ne _ _ _ _ h]
    · simp [nsSet, backingSet, hp]

theorem nsGet_nsFlush_other {s : Store} {A B : String} (k : String)
    (hA : strHas ':' A = false) (hB : strHas ':' B = false)
    (hBne : B ≠ "") (hBA : B ≠ A) :
    nsGet (nsFlush s A).2 B k = nsGet s B k := by
  rw [nsFlush_store, nsGet]
  apply storeGet_filter
  intro e _ hkey
  have hBmatch : strPrefix (pattern B) (encode B k) = true :=
    strPrefix_pattern_encode k hBne
  have hAmatch : strPrefix (pattern A) (encode B k) = false :=
    pattern_disjoint hB hA hBA hBmatch
  rw [hkey, hAmatch]
  rfl

theorem nsCount_nsFlush_other {s : Store} {A B : String}
    (hA : strHas ':' A = false) (hB : strHas ':' B = false) (hBA : B ≠ A) :
    nsCount (nsFlush s A).2 B = nsCount s B := by
  rw [nsFlush_store, nsCount, nsCount, List.filter_filter]
  refine congrArg List.length (List.filter_congr (fun e _ => ?_))
  cases hb : strPrefix (pattern B) e.1
  · simp [hb]
  · have ha : strPrefix (pattern A) e.1 = false := pattern_disjoint hB hA hBA hb
    simp [hb, ha]

theorem nsGet_none_preserved {ns k : String} {s : Store}
    (h : nsGet s ns k = none) (op : CacheOp) (hop : setsKey k op = false) :
    nsGet (runOp ns s op) ns k = none := by
  cases op with
  | opSet k2 v ttl m =>
    have hk : k2 ≠ k := by simpa [setsKey] using hop
    have hne : encode ns k ≠ encode ns k2 :=
      encode_ne_key (fun he => hk he.symm)
    rw [runOp, nsGet_nsSet_other v ttl m hne]
    exact h
  | opDel k2 =>
    by_cases hp : (storeGet s (encode ns k2)).isSome
    · rw [nsGet] at h ⊢
      simp only [runOp, nsDel, backingDel, hp, if_true, storeRemove]
      exact storeGet_none_filter _ h
    · simpa [runOp, nsDel, backingDel, hp] using h
  | opFlush =>
    rw [nsGet] at h ⊢
    rw [runOp, nsFlush_store]
    exact storeGet_none_filter _ h

theorem nsGet_none_runOps {ns k : String} {s : Store}
    (h : nsGet s ns k = none) (ops : List CacheOp)
    (hops : ∀ op ∈ ops, setsKey k op = false) :
    nsGet (runOps ns s ops) ns k = none := by
  induction ops generalizing s with
  | nil => exact h
  | cons op rest ih =>
    rw [runOps, List.foldl_cons]
    exact ih (nsGet_none_preserved h op (hops op (List.mem_cons_self _ _)))
      (fun op2 h2 => hops op2 (List.mem_cons_of_mem _ h2))

/- ### The claims -/

/-- Claim C2: namespace isolation.  For distinct namespaces A and B and a
common logical key k, the physical keys differ, and a set of k through
the view of A leaves the value B reads for k exactly as it was (null, or
whatever B itself had set), never the value written through A. -/
theorem C2_namespace_isolation (s : Store) (A B k v1 : String) (ttl : Nat)
    (m : SetMode) (hAB : A ≠ B) :
    encode A k ≠ encode B k ∧
    nsGet (nsSet s A k v1 ttl m).2 B k = nsGet s B k := by
  have hne : encode B k ≠ encode A k := encode_ne_ns (fun h => hAB h.symm)
  exact ⟨encode_ne_ns hAB, nsGet_nsSet_other v1 ttl m hne⟩

/-- Witness for C2 at concrete input. -/
theorem C2_namespace_isolation_witness :
    ("ns" : String) ≠ "ns1" ∧
    (encode "ns" "foo" ≠ encode "ns1" "foo" ∧
      nsGet (nsSet [] "ns" "foo" "bar" 0 SetMode.plain).2 "ns1" "foo" =
        nsGet [] "ns1" "foo") :=
  ⟨by decide,
    C2_namespace_isolation [] "ns" "ns1" "foo" "bar" 0 SetMode.plain (by decide)⟩

/-- Claim C3: nx semantics.  On an absent key the first nx set returns
the literal OK; a second nx set on the now-present key returns null and
leaves the stored value unchanged (still the first value). -/
theorem C3_nx_semantics (s : Store) (ns k v v2 : String)
    (h : nsGet s ns k = none) :
    (nsSet s ns k v 0 SetMode.nx).1 = some "OK" ∧
    (nsSet (nsSet s ns k v 0 SetMode.nx).2 ns k v2 0 SetMode.nx).1 = none ∧
    (nsSet (nsSet s ns k v 0 SetMode.nx).2 ns k v2 0 SetMode.nx).2 =
      (nsSet s ns k v 0 SetMode.nx).2 ∧
    nsGet (nsSet (nsSet s ns k v 0 SetMode.nx).2 ns k v2 0 SetMode.nx).2 ns k =
      some v := by
  rw [nsGet] at h
  have h1 : (storeGet s (encode ns k)).isSome = false := by rw [h]; rfl
  have hstore : (nsSet s ns k v 0 SetMode.nx).2 =
      storeInsert s (encode ns k) v := by
    simp [nsSet, backingSet, h1]
  have h2 : storeGet (storeInsert s (encode ns k) v) (encode ns k) = some v :=
    storeGet_insert_self s (encode ns k) v
  refine ⟨by simp [nsSet, backingSet, h1], ?_, ?_, ?_⟩
  · rw [hstore]; simp [nsSet, backingSet, h2]
  · rw [hstore]; simp [nsSet, backingSet, h2]
  · rw [hstore]; simp [nsSet, backingSet, h2, nsGet]

/-- Witness for C3 at concrete input. -/
theorem C3_nx_semantics_witness :
    nsGet [] "ns" "foo" = none ∧
    (nsSet [] "ns" "foo" "bar" 0 SetMode.nx).1 = some "OK" ∧
    (nsSet (nsSet [] "ns" "foo" "bar" 0 SetMode.nx).2 "ns" "foo" "baz" 0
      SetMode.nx).1 = none ∧
    (nsSet (nsSet [] "ns" "foo" "bar" 0 SetMode.nx).2 "ns" "foo" "baz" 0
      SetMode.nx).2 = (nsSet [] "ns" "foo" "bar" 0 SetMode.nx).2 ∧
    nsGet (nsSet (nsSet [] "ns" "foo" "bar" 0 SetMode.nx).2 "ns" "foo" "baz" 0
      SetMode.nx).2 "ns" "foo" = some "bar" :=
  ⟨by decide, C3_nx_semantics [] "ns" "foo" "bar" "baz" (by decide)⟩

/-- Claim C4: xx semantics and the non-error status of a failed guard.
On an absent key an xx set returns null and leaves the store exactly as
it was (the key is not created); on a present key an xx set returns OK
and updates the value.  The null result is an ordinary return value of
the total set operation, not an error signal. -/
theorem C4_xx_semantics (s s2 : Store) (ns k v v2 w : String) (ttl : Nat) :
    (nsGet s ns k = none →
      (nsSet s ns k v 0 SetMode.xx).1 = none ∧
      (nsSet s ns k v 0 SetMode.xx).2 = s ∧
      nsGet (nsSet s ns k v 0 SetMode.xx).2 ns k = none) ∧
    (nsGet s2 ns k = some w →
      (nsSet s2 ns k v2 ttl SetMode.xx).1 = some "OK" ∧
      nsGet (nsSet s2 ns k v2 ttl SetMode.xx).2 ns k = some v2) := by
  constructor
  · intro h
    rw [nsGet] at h
    have h1 : (storeGet s (encode ns k)).isSome = false := by rw [h]; rfl
    refine ⟨by simp [nsSet, backingSet, h1], by simp [nsSet, backingSet, h1], ?_⟩
    simp [nsSet, backingSet, h1, nsGet, h]
  · intro h
    rw [nsGet] at h
    have h1 : (storeGet s2 (encode ns k)).isSome = true := by rw [h]; rfl
    refine ⟨by simp [nsSet, backingSet, h1], ?_⟩
    simp [nsSet, backingSet, h1, nsGet, storeGet_insert_self]

/-- Witness for C4 at concrete input. -/
theorem C4_xx_semantics_witness :
    (nsGet [] "ns" "foo" = none ∧
      ((nsSet [] "ns" "foo" "bar" 0 SetMode.xx).1 = none ∧
        (nsSet [] "ns" "foo" "bar" 0 SetMode.xx).2 = [] ∧
        nsGet (nsSet [] "ns" "foo" "bar" 0 SetMode.xx).2 "ns" "foo" = none)) ∧
    (nsGet [(encode "ns" "foo", "bar")] "ns" "foo" = some "bar" ∧
      ((nsSet [(encode "ns" "foo", "bar")] "ns" "foo" "baz" 1 SetMode.xx).1 =
        some "OK" ∧
        nsGet (nsSet [(encode "ns" "foo", "bar")] "ns" "foo" "baz" 1
          SetMode.xx).2 "ns" "foo" = some "baz")) :=
  ⟨⟨by decide,
    (C4_xx_semantics [] [(encode "ns" "foo", "bar")] "ns" "foo" "bar" "baz"
      "bar" 1).1 (by decide)⟩,
   ⟨by decide,
    (C4_xx_semantics [] [(encode "ns" "foo", "bar")] "ns" "foo" "bar" "baz"
      "bar" 1).2 (by decide)⟩⟩

/-- Claim C5: get and set round trip.  A key never set by any operation
of a trace run from the empty store reads as null, and after a
default-mode set of k the get of k returns the value just written. -/
theorem C5_get_set_roundtrip (ns k v : String) (s : Store)
    (ops : List CacheOp) (h : ∀ op ∈ ops, setsKey k op = false) :
    nsGet (runOps ns [] ops) ns k = none ∧
    nsGet (nsSet s ns k v 0 SetMode.plain).2 ns k = some v := by
  constructor
  · exact nsGet_none_runOps (s := ([] : Store)) rfl ops h
  · simp [nsSet, backingSet, nsGet, storeGet_insert_self]

/-- Witness for C5 at concrete input. -/
theorem C5_get_set_roundtrip_witness :
    (∀ op ∈ [CacheOp.opSet "bar" "b" 0 SetMode.plain, CacheOp.opDel "foo",
      CacheOp.opFlush], setsKey "foo" op = false) ∧
    (nsGet (runOps "ns" [] [CacheOp.opSet "bar" "b" 0 SetMode.plain,
      CacheOp.opDel "foo", CacheOp.opFlush]) "ns" "foo" = none ∧
      nsGet (nsSet [] "ns" "foo" "bar" 0 SetMode.plain).2 "ns" "foo" =
        some "bar") :=
  ⟨by decide,
    C5_get_set_roundtrip "ns" "foo" "bar" []
      [CacheOp.opSet "bar" "b" 0 SetMode.plain, CacheOp.opDel "foo",
        CacheOp.opFlush] (by decide)⟩

/-- Claim C7: delete semantics.  The delete operation returns true
exactly when an entry was present and removed; after a delete the get of
that key is null and a second delete with no intervening set returns
false. -/
theorem C7_delete_semantics (s : Store) (ns k : String) :
    (nsDel s ns k).1 = (nsGet s ns k).isSome ∧
    nsGet (nsDel s ns k).2 ns k = none ∧
    (nsDel (nsDel s ns k).2 ns k).1 = false := by
  by_cases hp : (storeGet s (encode ns k)).isSome
  · have hrem := storeGet_remove_self s (encode ns k)
    refine ⟨by simp [nsDel, backingDel, hp, nsGet], ?_, ?_⟩
    · simp [nsDel, backingDel, hp, nsGet, hrem]
    · simp [nsDel, backingDel, hp, nsGet, hrem]
  · have hn : storeGet s (encode ns k) = none := by
      cases hx : storeGet s (encode ns k)
      · rfl
      · rw [hx] at hp; simp at hp
    refine ⟨by simp [nsDel, backingDel, hp, nsGet, hn], ?_, ?_⟩
    · simp [nsDel, backingDel, hp, nsGet, hn]
    · simp [nsDel, backingDel, hp, nsGet, hn]

/-- Claim C1: flush count correctness.  On a namespace with zero entries
flush returns 0; after a succeeding nx set of k1, a failing xx set of
the absent k2 and a default-mode set of k3, flush returns exactly 2. -/
theorem C1_flush_count (s : Store) (ns k1 k2 k3 v1 v2 v3 : String)
    (hns : ns ≠ "")
    (hempty : ∀ e ∈ s, strPrefix (pattern ns) e.1 = false)
    (h12 : k1 ≠ k2) (h13 : k1 ≠ k3) :
    (nsFlush s ns).1 = 0 ∧
    (nsSet s ns k1 v1 0 SetMode.nx).1 = some "OK" ∧
    (nsSet (nsSet s ns k1 v1 0 SetMode.nx).2 ns k2 v2 0 SetMode.xx).1 = none ∧
    (nsSet (nsSet (nsSet s ns k1 v1 0 SetMode.nx).2 ns k2 v2 0 SetMode.xx).2
      ns k3 v3 0 SetMode.plain).1 = some "OK" ∧
    (nsFlush (nsSet (nsSet (nsSet s ns k1 v1 0 SetMode.nx).2 ns k2 v2 0
      SetMode.xx).2 ns k3 v3 0 SetMode.plain).2 ns).1 = 2 := by
  have hm1 := strPrefix_pattern_encode k1 hns
  have hm3 := strPrefix_pattern_encode k3 hns
  have inert : ∀ pk, strPrefix (pattern ns) pk = true → storeGet s pk = none := by
    intro pk hpk
    rw [storeGet_eq_none_iff]
    intro e he heq
    have hf := hempty e he
    rw [heq, hpk] at hf
    exact absurd hf (by decide)
  have hg1 := inert _ hm1
  have hg2 := inert _ (strPrefix_pattern_encode k2 hns)
  have hne21 : encode ns k2 ≠ encode ns k1 := encode_ne_key (fun h => h12 h.symm)
  have hne13 : encode ns k1 ≠ encode ns k3 := encode_ne_key h13
  have hne31 : encode ns k3 ≠ encode ns k1 := encode_ne_key (fun h => h13 h.symm)
  have henum : enumerate s (pattern ns) = [] := by
    rw [enumerate, List.filter_eq_nil.mpr (fun e he => by simp [hempty e he])]
    rfl
  have hg1s : (storeGet s (encode ns k1)).isSome = false := by rw [hg1]; rfl
  have hr1 : nsSet s ns k1 v1 0 SetMode.nx =
      (some "OK", storeInsert s (encode ns k1) v1) := by
    simp [nsSet, backingSet, hg1s]
  have hg2i : storeGet (storeInsert s (encode ns k1) v1) (encode ns k2) =
      none := by
    rw [storeGet_insert_ne _ _ _ _ hne21]
    exact hg2
  have hg2s : (storeGet (storeInsert s (encode ns k1) v1)
      (encode ns k2)).isSome = false := by rw [hg2i]; rfl
  have hr2 : nsSet (storeInsert s (encode ns k1) v1) ns k2 v2 0 SetMode.xx =
      (none, storeInsert s (encode ns k1) v1) := by
    simp [nsSet, backingSet, hg2s]
  have hget3 : storeGet (storeInsert (storeInsert s (encode ns k1) v1)
      (encode ns k3) v3) (encode ns k3) = some v3 :=
    storeGet_insert_self _ _ _
  have hget1 : storeGet (storeInsert (storeInsert s (encode ns k1) v1)
      (encode ns k3) v3) (encode ns k1) = some v1 := by
    rw [storeGet_insert_ne _ _ _ _ hne13]
    exact storeGet_insert_self _ _ _
  have hfil : (storeInsert (storeInsert s (encode ns k1) v1) (encode ns k3)
      v3).filter (fun e => strPrefix (pattern ns) e.1) =
      [(encode ns k3, v3), (encode ns k1, v1)] := by
    simp only [storeInsert]
    rw [List.filter_cons_of_pos (by simpa using hm3)]
    rw [List.filter_cons_of_pos (by simp [hne13])]
    rw [List.filter_cons_of_pos (by simpa using hm1)]
    have htail : ((s.filter (fun e => e.1 ≠ encode ns k1)).filter
        (fun e => e.1 ≠ encode ns k3)).filter
        (fun e => strPrefix (pattern ns) e.1) = [] := by
      refine List.filter_eq_nil.mpr (fun e he => ?_)
      have hes : e ∈ s := (List.mem_filter.mp (List.mem_filter.mp he).1).1
      simp [hempty e hes]
    rw [htail]
  have henum2 : enumerate (storeInsert (storeInsert s (encode ns k1) v1)
      (encode ns k3) v3) (pattern ns) = [encode ns k3, encode ns k1] := by
    rw [enumerate, hfil]
    rfl
  have hmem2 : ∀ pk ∈ [encode ns k3, encode ns k1],
      (storeGet (storeInsert (storeInsert s (encode ns k1) v1)
        (encode ns k3) v3) pk).isSome = true := by
    intro pk hp
    rcases List.mem_cons.mp hp with h | h
    · rw [h, hget3]; rfl
    · rcases List.mem_cons.mp h with h2 | h2
      · rw [h2, hget1]; rfl
      · exact absurd h2 (List.not_mem_nil _)
  have hnd2 : ([encode ns k3, encode ns k1] : List String).Nodup := by
    simp [hne31]
  refine ⟨by rw [nsFlush, henum]; rfl, by rw [hr1], ?_, ?_, ?_⟩
  · rw [hr1]
    rw [hr2]
  · rw [hr1]
    rw [hr2]
    rfl
  · rw [hr1]
    rw [hr2]
    show (nsFlush (storeInsert (storeInsert s (encode ns k1) v1)
      (encode ns k3) v3) ns).1 = 2
    rw [nsFlush, henum2, flushLoop_count _ 0 _ hmem2 hnd2]
    rfl

/-- Witness for C1 at concrete input. -/
theorem C1_flush_count_witness :
    (("ns" : String) ≠ "" ∧
      (∀ e ∈ ([] : Store), strPrefix (pattern "ns") e.1 = false) ∧
      ("foo1" : String) ≠ "foo2" ∧ ("foo1" : String) ≠ "foo3") ∧
    ((nsFlush [] "ns").1 = 0 ∧
      (nsSet [] "ns" "foo1" "bar1" 0 SetMode.nx).1 = some "OK" ∧
      (nsSet (nsSet [] "ns" "foo1" "bar1" 0 SetMode.nx).2 "ns" "foo2" "bar2" 0
        SetMode.xx).1 = none ∧
      (nsSet (nsSet (nsSet [] "ns" "foo1" "bar1" 0 SetMode.nx).2 "ns" "foo2"
        "bar2" 0 SetMode.xx).2 "ns" "foo3" "bar3" 0 SetMode.plain).1 =
        some "OK" ∧
      (nsFlush (nsSet (nsSet (nsSet [] "ns" "foo1" "bar1" 0 SetMode.nx).2 "ns"
        "foo2" "bar2" 0 SetMode.xx).2 "ns" "foo3" "bar3" 0
        SetMode.plain).2 "ns").1 = 2) :=
  ⟨⟨by decide, by decide, by decide, by decide⟩,
    C1_flush_count [] "ns" "foo1" "foo2" "foo3" "bar1" "bar2" "bar3"
      (by decide) (by decide) (by decide) (by decide)⟩

/-- Claim C6: flush frame condition.  Flushing namespace A keeps every
entry whose physical key is outside the pattern of A, keeps the entry
count of any other valid namespace B unchanged, and leaves the value B
reads for any key unchanged. -/
theorem C6_flush_frame (s : Store) (A B pk v k : String)
    (hAne : A ≠ "") (hA : strHas ':' A = false)
    (hBne : B ≠ "") (hB : strHas ':' B = false) (hBA : B ≠ A) :
    ((pk, v) ∈ s → strPrefix (pattern A) pk = false →
      (pk, v) ∈ (nsFlush s A).2) ∧
    nsCount (nsFlush s A).2 B = nsCount s B ∧
    nsGet (nsFlush s A).2 B k = nsGet s B k := by
  refine ⟨?_, nsCount_nsFlush_other hA hB hBA, nsGet_nsFlush_other k hA hB hBne hBA⟩
  intro hmem hnm
  rw [nsFlush_store]
  exact List.mem_filter.mpr ⟨hmem, by simp [hnm]⟩

/-- Witness for C6 at concrete input. -/
theorem C6_flush_frame_witness :
    (("ns" : String) ≠ "" ∧ strHas ':' "ns" = false ∧
      ("ns1" : String) ≠ "" ∧ strHas ':' "ns1" = false ∧
      ("ns1" : String) ≠ "ns") ∧
    (((("ns1:foo", "bar") : String × String) ∈
        ([("ns:foo", "bar"), ("ns1:foo", "bar")] : Store) →
      strPrefix (pattern "ns") "ns1:foo" = false →
      (("ns1:foo", "bar") : String × String) ∈
        (nsFlush [("ns:foo", "bar"), ("ns1:foo", "bar")] "ns").2) ∧
     nsCount (nsFlush [("ns:foo", "bar"), ("ns1:foo", "bar")] "ns").2 "ns1" =
       nsCount [("ns:foo", "bar"), ("ns1:foo", "bar")] "ns1" ∧
     nsGet (nsFlush [("ns:foo", "bar"), ("ns1:foo", "bar")] "ns").2 "ns1"
       "foo" = nsGet [("ns:foo", "bar"), ("ns1:foo", "bar")] "ns1" "foo") :=
  ⟨⟨by decide, by decide, by decide, by decide, by decide⟩,
    C6_flush_frame [("ns:foo", "bar"), ("ns1:foo", "bar")] "ns" "ns1"
      "ns1:foo" "bar" "foo" (by decide) (by decide) (by decide) (by decide)
      (by decide)⟩

/-- Claim C8: facade flush scope.  The facade flush, bound to the
default namespace, keeps the entry count and the readable values of
every valid non-default namespace N unchanged, and every entry it does
remove has a physical key that no valid non-default namespace encodes:
it only removes entries of the default namespace and never wipes the
whole store. -/
theorem C8_facade_flush_scope (s : Store) (N pk v km k M : String)
    (hNne : N ≠ "") (hN : strHas ':' N = false)
    (hMne : M ≠ "") (hM : strHas ':' M = false) :
    nsCount (cacheFlush s).2 N = nsCount s N ∧
    nsGet (cacheFlush s).2 N k = nsGet s N k ∧
    ((pk, v) ∈ s → (pk, v) ∉ (cacheFlush s).2 → pk ≠ encode M km) := by
  have hEmpty : strHas ':' "" = false := rfl
  refine ⟨nsCount_nsFlush_other hEmpty hN hNne,
    nsGet_nsFlush_other k hEmpty hN hNne hNne, ?_⟩
  intro hmem hnot he
  have hmatch : strPrefix (pattern "") pk = true := by
    cases hx : strPrefix (pattern "") pk
    · exact absurd (by
        rw [cacheFlush, nsFlush_store]
        exact List.mem_filter.mpr ⟨hmem, by simp [hx]⟩) hnot
    · rfl
  have hMmatch : strPrefix (pattern M) pk = true := by
    rw [he]
    exact strPrefix_pattern_encode km hMne
  have : strPrefix (pattern M) pk = false :=
    pattern_disjoint hEmpty hM (fun h2 => hMne h2.symm) hmatch
  rw [hMmatch] at this
  exact absurd this (by decide)

/-- Witness for C8 at concrete input. -/
theorem C8_facade_flush_scope_witness :
    (("ns" : String) ≠ "" ∧ strHas ':' "ns" = false) ∧
    (nsCount (cacheFlush [("foo", "bar"), ("ns:foo", "bar")]).2 "ns" =
       nsCount [("foo", "bar"), ("ns:foo", "bar")] "ns" ∧
     nsGet (cacheFlush [("foo", "bar"), ("ns:foo", "bar")]).2 "ns" "foo" =
       nsGet [("foo", "bar"), ("ns:foo", "bar")] "ns" "foo" ∧
     ((("foo", "bar") : String × String) ∈
        ([("foo", "bar"), ("ns:foo", "bar")] : Store) →
      (("foo", "bar") : String × String) ∉
        (cacheFlush [("foo", "bar"), ("ns:foo", "bar")]).2 →
      ("foo" : String) ≠ encode "ns" "x")) :=
  ⟨⟨by decide, by decide⟩,
    C8_facade_flush_scope [("foo", "bar"), ("ns:foo", "bar")] "ns" "foo"
      "bar" "x" "foo" "ns" (by decide) (by decide) (by decide) (by decide)⟩

/-- Counterexample to claim C9: importing the entities module is not
free of ambient global-state modification; on a pristine prototype, the
module load does change the shared Sequelize prototype, installing the
validateIsUnique helper slot as an import side effect. -/
theorem C9_counterexample :
    loadEntitiesModule { validateIsUnique := none } ≠
      { validateIsUnique := none } := by
  intro h
  have h2 := congrArg (fun p => p.validateIsUnique.isSome) h
  simp [loadEntitiesModule] at h2

/-- Claim C9 as amended: importing the entities module does mutate the
shared Sequelize prototype, unconditionally installing the
validateIsUnique helper (an import-order side effect, not an explicitly
passed validation function); the installed helper rejects a value with
the given or default message exactly when the count of conflicting rows
is non-zero. -/
theorem C9_amended_prototype_mutation (p : SequelizePrototype) (col : String)
    (msg : Option String) (found : Nat) :
    (loadEntitiesModule p).validateIsUnique = some validateIsUniqueCheck ∧
    (found ≠ 0 → validateIsUniqueCheck col msg found =
      some (msg.getD (col ++ " must be unique"))) ∧
    validateIsUniqueCheck col msg 0 = none := by
  refine ⟨rfl, fun h => ?_, rfl⟩
  simp [validateIsUniqueCheck, validateIsUniqueMessage, h]

/-- Witness for the amended C9 at concrete input. -/
theorem C9_amended_prototype_mutation_witness :
    (loadEntitiesModule { validateIsUnique := none }).validateIsUnique =
      some validateIsUniqueCheck ∧
    (2 : Nat) ≠ 0 ∧
    validateIsUniqueCheck "email" none 2 = some "email must be unique" ∧
    validateIsUniqueCheck "email" none 0 = none :=
  ⟨(C9_amended_prototype_mutation ⟨none⟩ "email" none 2).1, by decide,
    (C9_amended_prototype_mutation ⟨none⟩ "email" none 2).2.1 (by decide),
    (C9_amended_prototype_mutation ⟨none⟩ "email" none 2).2.2⟩

theorem Entities_init_completed (st : EntitiesState) (fresh : Nat)
    (found : List (String × Nat)) :
    ((Entities.init st fresh found).1.sequelize.isSome &&
      (Entities.init st fresh found).1.scanned) = true := by
  by_cases h : (st.sequelize.isSome && st.scanned) = true
  · rw [Entities.init, if_pos h]
    exact h
  · rw [Entities.init, if_neg h]
    simp [scanEntities]

theorem EntitiesModule_init_completed (st : EntitiesModuleState)
    (fresh : Nat) (found : List (String × Nat)) :
    (EntitiesModule.init st fresh found).1.sequelize.isSome = true := by
  by_cases h : st.sequelize.isSome = true
  · rw [EntitiesModule.init, if_pos h]
    exact h
  · rw [EntitiesModule.init, if_neg h]
    rfl

/-- Claim C10: once init has completed, every subsequent init,
getInstance, get or getAll call returns at once, constructing no new
Sequelize instance, running no directory scan, and leaving the state
(the registry included) exactly as it was; the same holds for the
module-level init of the older entities module. -/
theorem C10_init_idempotent (st : EntitiesState) (f1 f2 : Nat)
    (fd1 fd2 : List (String × Nat)) (name : String)
    (mst : EntitiesModuleState) (g1 g2 : Nat)
    (gd1 gd2 : List (String × Nat)) :
    Entities.init (Entities.init st f1 fd1).1 f2 fd2 =
      ((Entities.init st f1 fd1).1, ⟨0, 0⟩) ∧
    Entities.getInstance (Entities.init st f1 fd1).1 f2 fd2 =
      ((Entities.init st f1 fd1).1.sequelize, (Entities.init st f1 fd1).1,
        ⟨0, 0⟩) ∧
    Entities.get (Entities.init st f1 fd1).1 f2 fd2 name =
      (((Entities.init st f1 fd1).1.entities.find?
          (fun e => e.1 = name)).map Prod.snd,
        (Entities.init st f1 fd1).1, ⟨0, 0⟩) ∧
    Entities.getAll (Entities.init st f1 fd1).1 f2 fd2 =
      ((Entities.init st f1 fd1).1.entities, (Entities.init st f1 fd1).1,
        ⟨0, 0⟩) ∧
    EntitiesModule.init (EntitiesModule.init mst g1 gd1).1 g2 gd2 =
      ((EntitiesModule.init mst g1 gd1).1, ⟨0, 0⟩) := by
  have h1 := Entities_init_completed st f1 fd1
  have hinit : Entities.init (Entities.init st f1 fd1).1 f2 fd2 =
      ((Entities.init st f1 fd1).1, ⟨0, 0⟩) := by
    rw [Entities.init, if_pos h1]
  have h2 := EntitiesModule_init_completed mst g1 gd1
  refine ⟨hinit, ?_, ?_, ?_, ?_⟩
  · rw [Entities.getInstance, hinit]
  · rw [Entities.get, hinit]
  · rw [Entities.getAll, hinit]
  · rw [EntitiesModule.init, if_pos h2]

end NodeSide
